import Mathlib

set_option maxHeartbeats 1000000

/-!
Verification model of the Chalk CLI (src/index.js).

The file shallowly embeds the parts of the program that the claims touch:
the thinking-delimiter stripping applied to model content, the `/compact`
slash-command handler, the slash-command resolution in the REPL, the
run-shell-command confirmation gate, the agentic chat loop (`chat`), the
REPL turn that feeds it (`repl`), and the raw-mode terminal primitives
(`rawInput`, `showSlashMenu`, `boxSelect`, `boxTextInput`).

JavaScript strings are modelled as `List Char`; the interactive and
network effects are modelled by passing the environment explicitly: the
sequence of fetch outcomes is a script, keystroke events are a list of
byte chunks, and the tool dispatcher plus `JSON.parse` are function
parameters.
-/

namespace Chalk

/-- Characters of a JavaScript string. -/
abbrev Str := List Char

/-- Splits `s` at the first (leftmost) occurrence of the non-empty pattern
`pat`: returns `some (before, after)` with `s = before ++ pat ++ after`,
or `none` when `pat` does not occur in `s`.  This is the primitive used to
model a JavaScript regex engine locating a literal alternative. -/
def splitFirst (pat : Str) : Str → Option (Str × Str)
  | [] => none
  | c :: cs =>
    if pat.isPrefixOf (c :: cs) then some ([], (c :: cs).drop pat.length)
    else
      match splitFirst pat cs with
      | some (p, rest) => some (c :: p, rest)
      | none => none

/-- The opening thinking delimiter of src/index.js lines 1692/1729. -/
def openTag : Str := "<think>".data

/-- The closing thinking delimiter of src/index.js lines 1692/1729. -/
def closeTag : Str := "</think>".data

/-- One global pass of `content.replace(/<think>[\s\S]*?<\/think>/g, "")`
(src/index.js line 1729): repeatedly locate the first `<think>`, and when a
`</think>` follows it, delete through the end of that closing tag and
continue scanning after it; when the first `<think>` has no close after it
the regex has no match at all and the string is returned unchanged.  The
`fuel` argument only bounds the recursion; `stripClosed` supplies enough. -/
def stripClosedFuel : Nat → Str → Str
  | 0, s => s
  | fuel + 1, s =>
    match splitFirst openTag s with
    | none => s
    | some (p, rest) =>
      match splitFirst closeTag rest with
      | none => s
      | some (_, rest2) => p ++ stripClosedFuel fuel rest2

/-- `content.replace(/<think>[\s\S]*?<\/think>/g, "")` (src/index.js 1729). -/
def stripClosed (s : Str) : Str := stripClosedFuel s.length s

/-- `content.replace(/<think>[\s\S]*/g, "")` (src/index.js line 1729):
everything from the first remaining `<think>` to the end of the string is
removed. -/
def stripOpen (s : Str) : Str :=
  match splitFirst openTag s with
  | none => s
  | some (p, _) => p

/-- The WhiteSpace and LineTerminator code points removed by JavaScript
`String.prototype.trim`. -/
def jsWhitespaceChars : Str :=
  [' ', '\t', '\n', '\r', Char.ofNat 0x0B, Char.ofNat 0x0C, Char.ofNat 0xA0,
   Char.ofNat 0x1680, Char.ofNat 0x2000, Char.ofNat 0x2001, Char.ofNat 0x2002,
   Char.ofNat 0x2003, Char.ofNat 0x2004, Char.ofNat 0x2005, Char.ofNat 0x2006,
   Char.ofNat 0x2007, Char.ofNat 0x2008, Char.ofNat 0x2009, Char.ofNat 0x200A,
   Char.ofNat 0x2028, Char.ofNat 0x2029, Char.ofNat 0x202F, Char.ofNat 0x205F,
   Char.ofNat 0x3000, Char.ofNat 0xFEFF]

def jsWhitespace (c : Char) : Bool := jsWhitespaceChars.contains c

/-- JavaScript `String.prototype.trim`. -/
def jsTrim (s : Str) : Str :=
  ((s.dropWhile jsWhitespace).reverse.dropWhile jsWhitespace).reverse

/-- The full transform applied to model content before display/return
(src/index.js line 1729):
`content.replace(/<think>[\s\S]*?<\/think>/g, "").replace(/<think>[\s\S]*/g, "").trim()`. -/
def cleanContent (s : Str) : Str := jsTrim (stripOpen (stripClosed s))

/-- JavaScript `String.prototype.toLowerCase` (ASCII fragment). -/
def jsToLower (s : Str) : Str := s.map Char.toLower

/-- Builder for contents made of well-formed thinking spans: each segment
`(tᵢ, sᵢ)` contributes `tᵢ ++ "<think>" ++ sᵢ ++ "</think>"`, followed by a
final outside segment `t`, and optionally an unterminated `"<think>" ++ u`. -/
def spansText : List (Str × Str) → Str → Option Str → Str
  | [], t, none => t
  | [], t, some u => t ++ openTag ++ u
  | (t0, s0) :: rest, t, u => t0 ++ openTag ++ s0 ++ closeTag ++ spansText rest t u

/-- The regular text standing outside the thinking spans of `spansText`. -/
def outsideText : List (Str × Str) → Str → Str
  | [], t => t
  | (t0, _) :: rest, t => t0 ++ outsideText rest t

/-- True when the optional unterminated tail contains no closing delimiter. -/
def noCloseTagIn : Option Str → Bool
  | none => true
  | some v => (splitFirst closeTag v).isNone

/-! ## Tool execution (src/index.js lines 1093-1162) -/

/-- Structured result returned to the model loop by a tool. -/
structure ToolResult where
  output : Str
  success : Bool
deriving DecidableEq

/-- Outcome of `execSync` for the shallow embedding: a normal completion
with captured output, or a thrown error carrying optional partial
stdout/stderr and the error message. -/
inductive ExecOutcome
  | ok (stdoutText : Str)
  | err (stdoutText stderrText : Option Str) (message : Str)
deriving DecidableEq

/-- `ask` (src/index.js 1093-1101) returns `answer.trim().toLowerCase()`. -/
def normalizeAnswer (raw : Str) : Str := jsToLower (jsTrim raw)

/-- The fixed denial result of src/index.js line 1107. -/
def deniedRunResult : ToolResult :=
  { output := "User denied command execution.".data, success := false }

/-- `execToolRun` (src/index.js 1103-1128), with the interactive answer and
the `execSync` outcome passed explicitly.  The second component records
whether the command was executed at all. -/
def execToolRun (rawAnswer : Str) (exec : ExecOutcome) : ToolResult × Bool :=
  let answer := normalizeAnswer rawAnswer
  if answer = "n".data ∨ answer = "no".data then (deniedRunResult, false)
  else
    match exec with
    | .ok out =>
      let trimmed := jsTrim out
      ({ output := if trimmed = [] then "(completed, no output)".data else trimmed,
         success := true }, true)
    | .err souto serro msg =>
      let souts := (souto.map jsTrim).getD []
      let serrs := (serro.map jsTrim).getD []
      let joined := List.intercalate ['\n'] (List.filter (fun p => !p.isEmpty) [souts, serrs])
      ({ output := if joined = [] then msg else joined, success := false }, true)

/-! ## Slash commands (src/index.js lines 1166-1177, 1950-1956, 721-734) -/

structure SlashCmd where
  name : Str
  description : Str
deriving DecidableEq

/-- The static catalog `SLASH_COMMANDS` (src/index.js 1166-1177). -/
def SLASH_COMMANDS : List SlashCmd :=
  [⟨"/help".data, "Show available commands and usage".data⟩,
   ⟨"/clear".data, "Clear the terminal screen".data⟩,
   ⟨"/agents".data, "Show system status and health".data⟩,
   ⟨"/config".data, "Show configuration and paths".data⟩,
   ⟨"/model".data, "Show current AI model".data⟩,
   ⟨"/tree".data, "Show project file tree".data⟩,
   ⟨"/cost".data, "Show token usage this session".data⟩,
   ⟨"/compact".data, "Truncate conversation to save context".data⟩,
   ⟨"/new".data, "Start a new conversation".data⟩,
   ⟨"/exit".data, "Exit Chalk".data⟩]

inductive SlashOutcome
  | dispatched (name : Str)
  | unknownReport (msg : Str)
deriving DecidableEq

/-- The slash resolution of the current REPL (src/index.js 1950-1956):
exact match dispatches; otherwise when exactly one catalog name starts with
the typed text it dispatches; every other case prints the unknown-command
report. -/
def resolveSlashInput (input : Str) : SlashOutcome :=
  match SLASH_COMMANDS.find? (fun c => c.name == input) with
  | some c => .dispatched c.name
  | none =>
    let part := SLASH_COMMANDS.filter (fun c => input.isPrefixOf c.name)
    if h : part.length = 1 then .dispatched (part.get ⟨0, by omega⟩).name
    else .unknownReport ("Unknown command: ".data ++ input ++ ". Type / to see all.".data)

inductive SlashOutcomeLegacy
  | dispatched (name : Str)
  | ambiguous (candidates : List Str)
  | unknownReport (msg : Str)
deriving DecidableEq

/-- The slash resolution of the earlier REPL kept in the repository
(src/index.js 721-734), which still reports ambiguity separately. -/
def resolveSlashInputLegacy (input : Str) : SlashOutcomeLegacy :=
  match SLASH_COMMANDS.find? (fun c => c.name == input) with
  | some c => .dispatched c.name
  | none =>
    let part := SLASH_COMMANDS.filter (fun c => input.isPrefixOf c.name)
    if h : part.length = 1 then .dispatched (part.get ⟨0, by omega⟩).name
    else if part.length > 1 then .ambiguous (part.map (fun c => c.name))
    else .unknownReport
      ("Unknown command: ".data ++ input ++ ". Type / to see all commands.".data)

/-! ## Session state (src/index.js 1926-1931) and `/compact` (1609-1617) -/

inductive Role
  | system | user | assistant | tool
deriving DecidableEq

structure SessionMsg where
  role : Role
  content : Str
deriving DecidableEq

structure Session where
  messages : List SessionMsg
  totalTokens : Nat
  promptTokens : Nat
  completionTokens : Nat
deriving DecidableEq

/-- The `/compact` case of `handleSlashCommand` (src/index.js 1609-1617).
`messages.slice(-4)` keeps the last four entries.  The second component is
the notice printed. -/
def handleCompact (ctx : Session) : Session × Str :=
  if ctx.messages.length > 6 then
    let kept := ctx.messages.drop (ctx.messages.length - 4)
    ({ ctx with messages := kept },
     "Compacted. Kept last ".data ++ (toString kept.length).data ++ " messages.".data)
  else (ctx, "Conversation is already short.".data)

/-! ## The agentic chat loop (src/index.js 1638-1748) and the REPL turn
(src/index.js 1966-1983) -/

/-- Parsed tool-call parameter set (a JSON object of named parameters). -/
abbrev ArgMap := List (Str × Str)

/-- `tc.function.arguments`: either the raw JSON-encoded text or an
already-structured object (src/index.js 1707-1709). -/
inductive ToolArgs
  | text (s : Str)
  | structured (m : ArgMap)
deriving DecidableEq

/-- A tool call inside a model response: `{id, function: {name, arguments}}`. -/
structure ToolCall where
  id : Str
  fname : Str
  args : ToolArgs
deriving DecidableEq

/-- An entry of the outgoing `apiMessages` transcript. -/
structure ApiMsg where
  role : Role
  content : Option Str
  tool_calls : List ToolCall
  tool_call_id : Option Str
deriving DecidableEq

/-- `choices[0].message`: optional text content plus optional tool calls. -/
structure ModelMessage where
  content : Option Str
  tool_calls : Option (List ToolCall)
deriving DecidableEq

structure Choice where
  message : ModelMessage
  finish_reason : Option Str
deriving DecidableEq

/-- `usage` metadata of a response; each field may be absent. -/
structure Usage where
  prompt_tokens : Option Nat
  completion_tokens : Option Nat
  total_tokens : Option Nat
deriving DecidableEq

structure ApiResponse where
  choices : List Choice
  usage : Option Usage
deriving DecidableEq

/-- Outcome of one `fetch` round-trip: `fail` covers transport failures,
timeouts and non-2xx responses (all reach the same catch block,
src/index.js 1655-1678); `ok` carries the decoded JSON body. -/
inductive FetchOutcome
  | fail (message : Str)
  | ok (data : ApiResponse)
deriving DecidableEq

/-- The record returned by `chat` on the final-answer path
(src/index.js 1734-1739). -/
structure ChatResult where
  content : Str
  promptTokens : Nat
  completionTokens : Nat
  totalTokens : Nat
deriving DecidableEq

/-- Observable loop state: the outgoing transcript plus everything printed. -/
structure ChatTrace where
  msgs : List ApiMsg
  prints : List Str
deriving DecidableEq

/-- How a run of the chat loop ends.  `abortedNull` is the error return of
lines 1677/1683, `doneNull` the `finish_reason` exit returning null at line
1747, `finished` the final-answer return of lines 1734-1739, and
`outOfScript` is the modelling artifact of exhausting the fetch script while
the loop would issue another request. -/
inductive ChatEnd
  | finished (res : ChatResult) (tr : ChatTrace)
  | abortedNull (tr : ChatTrace)
  | doneNull (tr : ChatTrace)
  | outOfScript (tr : ChatTrace)
deriving DecidableEq

/-- `choice.finish_reason === "stop" || choice.finish_reason === "end_turn"`
(src/index.js line 1742). -/
def stopish (fr : Option Str) : Bool :=
  fr == some "stop".data || fr == some "end_turn".data

def errorLogText (m : Str) : Str := "[error] ".data ++ m

def noChoiceLogText : Str := "[error] No response from model.".data

def chalkSays (s : Str) : Str := "Chalk: ".data ++ s

/-- The assistant-role transcript entry pushed before executing tool calls
(src/index.js 1697-1701); `message.content || null` maps the empty string
to null. -/
def assistantToolMsg (m : ModelMessage) : ApiMsg :=
  { role := .assistant
    content := match m.content with
      | some s => if s = [] then none else some s
      | none => none
    tool_calls := m.tool_calls.getD []
    tool_call_id := none }

/-- Argument parsing of src/index.js 1705-1712: a string form goes through
`JSON.parse` and a parse failure degrades to the empty parameter set. -/
def parseToolArgs (parseJson : Str → Option ArgMap) : ToolArgs → ArgMap
  | .text s => (parseJson s).getD []
  | .structured m => m

/-- The tool-role transcript entry appended for one tool call
(src/index.js 1714-1721). -/
def toolResultMsg (runTool : Str → ArgMap → ToolResult)
    (parseJson : Str → Option ArgMap) (tc : ToolCall) : ApiMsg :=
  { role := .tool
    content := some (runTool tc.fname (parseToolArgs parseJson tc.args)).output
    tool_calls := []
    tool_call_id := some tc.id }

/-- What src/index.js 1691-1694 prints alongside a tool-call round:
`if (message.content)` guards the stripping, and the stripped text is
printed only when non-empty. -/
def sideText (m : ModelMessage) : List Str :=
  match m.content with
  | none => []
  | some s =>
    if s = [] then []
    else
      let cleaned := cleanContent s
      if cleaned = [] then [] else [chalkSays cleaned]

/-- The loop state after one tool-call round (src/index.js 1689-1722): the
accompanying text is printed, the assistant entry carrying the raw tool
calls is pushed, then one tool-role result entry per call, in call order. -/
def toolRoundTrace (runTool : Str → ArgMap → ToolResult) (parseJson : Str → Option ArgMap)
    (choice : Choice) (tc : ToolCall) (tcs : List ToolCall) (tr : ChatTrace) : ChatTrace :=
  { msgs := tr.msgs ++ [assistantToolMsg choice.message]
      ++ (tc :: tcs).map (toolResultMsg runTool parseJson)
    prints := tr.prints ++ sideText choice.message }

/-- The `while (!done)` loop of `chat` (src/index.js 1646-1745), stepped
over the fetch script. -/
def chatGo (runTool : Str → ArgMap → ToolResult) (parseJson : Str → Option ArgMap) :
    List FetchOutcome → ChatTrace → ChatEnd
  | [], tr => .outOfScript tr
  | .fail m :: _, tr => .abortedNull { tr with prints := tr.prints ++ [errorLogText m] }
  | .ok data :: rest, tr =>
    match data.choices.head? with
    | none => .abortedNull { tr with prints := tr.prints ++ [noChoiceLogText] }
    | some choice =>
      match choice.message.tool_calls.getD [] with
      | [] =>
        let cleaned := cleanContent (choice.message.content.getD [])
        .finished
          { content := cleaned
            promptTokens := (data.usage.bind Usage.prompt_tokens).getD 0
            completionTokens := (data.usage.bind Usage.completion_tokens).getD 0
            totalTokens := (data.usage.bind Usage.total_tokens).getD 0 }
          { tr with prints := tr.prints ++ (if cleaned = [] then [] else [chalkSays cleaned]) }
      | tc :: tcs =>
        if stopish choice.finish_reason then
          .doneNull (toolRoundTrace runTool parseJson choice tc tcs tr)
        else chatGo runTool parseJson rest (toolRoundTrace runTool parseJson choice tc tcs tr)

/-- The value `chat` returns: the final record, or null. -/
def chatReturn : ChatEnd → Option ChatResult
  | .finished res _ => some res
  | _ => none

/-- `messages.map((m) => ({role: m.role, content: m.content}))`
(src/index.js 1641). -/
def sessionApiMsg (m : SessionMsg) : ApiMsg :=
  { role := m.role, content := some m.content, tool_calls := [], tool_call_id := none }

/-- `chat(config, systemPrompt, messages)` (src/index.js 1638-1748): the
initial transcript is the system message followed by the conversation. -/
def chat (runTool : Str → ArgMap → ToolResult) (parseJson : Str → Option ArgMap)
    (script : List FetchOutcome) (systemPrompt : Str)
    (messages : List SessionMsg) : ChatEnd :=
  chatGo runTool parseJson script
    { msgs := { role := .system, content := some systemPrompt,
                tool_calls := [], tool_call_id := none }
        :: messages.map sessionApiMsg
      prints := [] }

def userMsg (t : Str) : SessionMsg := { role := .user, content := t }

def assistantMsg (t : Str) : SessionMsg := { role := .assistant, content := t }

/-- One message-path iteration of the REPL (src/index.js 1966-1983): the
user message is appended, `chat` runs, and on a non-null result the
assistant reply (when non-empty) is appended and the usage counters are
accumulated. -/
def replTurn (runTool : Str → ArgMap → ToolResult) (parseJson : Str → Option ArgMap)
    (script : List FetchOutcome) (systemPrompt : Str)
    (ctx : Session) (userText : Str) : Session :=
  let messages1 := ctx.messages ++ [userMsg userText]
  match chatReturn (chat runTool parseJson script systemPrompt messages1) with
  | none => { ctx with messages := messages1 }
  | some r =>
    { messages := messages1 ++ (if r.content = [] then [] else [assistantMsg r.content])
      promptTokens := ctx.promptTokens + r.promptTokens
      completionTokens := ctx.completionTokens + r.completionTokens
      totalTokens := ctx.totalTokens + r.totalTokens }

/-- A fetch outcome that keeps the loop going with a round of tool calls:
a response whose first choice carries at least one tool call and whose
finish reason is not `stop`/`end_turn`. -/
def isToolRound : FetchOutcome → Bool
  | .fail _ => false
  | .ok data =>
    match data.choices.head? with
    | none => false
    | some choice =>
      match choice.message.tool_calls.getD [] with
      | [] => false
      | _ :: _ => !stopish choice.finish_reason

/-- True exactly when the run ended through the `finish_reason` exit that
returns null (src/index.js 1742-1747). -/
def isDoneNull : ChatEnd → Bool
  | .doneNull _ => true
  | _ => false

/-! ## Raw-terminal primitives (src/index.js 1812-1884, 1179-1280,
1300-1349, 1354-1393) -/

/-- One `data` event delivered to a raw-mode key handler: the bytes of the
chunk (`data[0]` is the key code). -/
abbrev KeyEvent := List Nat

def keyCode (k : KeyEvent) : Nat := k.headD 0

/-- `data.toString()` for a printable chunk. -/
def keyText (k : KeyEvent) : Str := k.map (fun b => Char.ofNat b)

/-- Whether a promise-based primitive has resolved, and with what. -/
inductive Resolution (α : Type)
  | pending
  | resolved (value : α)
deriving DecidableEq

structure RawLineResult where
  text : Str
  isSlash : Bool
deriving DecidableEq

/-- The key handler of `rawInput` (src/index.js 1834-1880) run over a list
of key events.  The second component is the terminal raw-mode flag after
the run: `setRawMode(true)` on entry, and `cleanup` calls
`setRawMode(false)` on every resolving path (line 1831). -/
def rawInputLoop (buf : Str) : List KeyEvent → Resolution (Option RawLineResult) × Bool
  | [] => (.pending, true)
  | k :: ks =>
    let code := keyCode k
    if code = 4 then (.resolved none, false)
    else if code = 3 then (.resolved (some { text := [], isSlash := false }), false)
    else if code = 13 then (.resolved (some { text := jsTrim buf, isSlash := false }), false)
    else if code = 127 ∨ code = 8 then rawInputLoop buf.dropLast ks
    else if code = 27 then rawInputLoop buf ks
    else if code = 9 then rawInputLoop buf ks
    else if 32 ≤ code ∧ code < 127 then
      let buf2 := buf ++ keyText k
      if buf2 = ['/'] then (.resolved (some { text := ['/'], isSlash := true }), false)
      else rawInputLoop buf2 ks
    else rawInputLoop buf ks

/-- `rawInput` (src/index.js 1812-1884).  `priorRaw` is the raw-mode flag
before the call; on a non-terminal stream the readline fallback resolves
the piped line (or null on close) without touching the mode. -/
def rawInputRun (isTTY priorRaw : Bool) (pipedLine : Option Str) (ks : List KeyEvent) :
    Resolution (Option RawLineResult) × Bool :=
  if isTTY then rawInputLoop [] ks
  else (.resolved (pipedLine.map (fun l => { text := jsTrim l, isSlash := false })), priorRaw)

/-- `includes` of JavaScript strings. -/
def strIncludes (l sub : Str) : Bool := sub.isEmpty || (splitFirst sub l).isSome

/-- `updateFilter` of `showSlashMenu` (src/index.js 1221-1227). -/
def menuFilter (filter : Str) : List SlashCmd :=
  let term := jsToLower filter
  SLASH_COMMANDS.filter
    (fun c => strIncludes (c.name.drop 1) term || strIncludes (jsToLower c.description) term)

/-- JavaScript array indexing with a possibly negative index. -/
def jsIndex (l : List α) (i : Int) : Option α :=
  if i < 0 then none else l[i.toNat]?

/-- The arrow-key update shared by `showSlashMenu` (1261-1266) and
`boxSelect` (1339-1343): `data[2] === 65` moves up with a floor of 0,
`data[2] === 66` moves down with a ceiling of `length - 1`. -/
def arrowMove (len : Nat) (k : KeyEvent) (selected : Int) : Int :=
  let s1 := if k[2]? = some 65 then max 0 (selected - 1) else selected
  if k[2]? = some 66 then min ((len : Int) - 1) (s1 + 1) else s1

/-- The key handler of `showSlashMenu` (src/index.js 1229-1275) run over a
list of key events; resolves the chosen command name or null, and `cleanup`
restores `setRawMode(wasRaw ?? false)` (line 1215). -/
def menuLoop (priorRaw : Bool) (filter : Str) (selected : Int) (filtered : List SlashCmd) :
    List KeyEvent → Resolution (Option Str) × Bool
  | [] => (.pending, true)
  | k :: ks =>
    let code := keyCode k
    if (code = 27 ∧ k.length = 1) ∨ code = 3 then (.resolved none, priorRaw)
    else if code = 13 then
      (.resolved ((jsIndex filtered selected).map (fun c => c.name)), priorRaw)
    else if code = 127 ∨ code = 8 then
      if filter.length > 0 then
        let f2 := filter.dropLast
        menuLoop priorRaw f2 0 (menuFilter f2) ks
      else (.resolved none, priorRaw)
    else if code = 27 ∧ k.length ≥ 3 then
      menuLoop priorRaw filter (arrowMove filtered.length k selected) filtered ks
    else if 32 ≤ code ∧ code < 127 then
      let f2 := filter ++ keyText k
      menuLoop priorRaw f2 0 (menuFilter f2) ks
    else menuLoop priorRaw filter selected filtered ks

/-- `showSlashMenu` (src/index.js 1179-1280): resolves null at once on a
non-terminal stream (line 1185). -/
def showSlashMenuRun (isTTY priorRaw : Bool) (ks : List KeyEvent) :
    Resolution (Option Str) × Bool :=
  if isTTY then menuLoop priorRaw [] 0 SLASH_COMMANDS ks
  else (.resolved none, priorRaw)

/-- The key handler of `boxSelect` (src/index.js 1335-1344): resolves the
selected index, or -1 on Escape/interrupt; `cleanup` restores
`setRawMode(wasRaw ?? false)` (line 1332). -/
def boxSelectLoop (priorRaw : Bool) (items : List Str) (selected : Int) :
    List KeyEvent → Resolution Int × Bool
  | [] => (.pending, true)
  | k :: ks =>
    let code := keyCode k
    if (code = 27 ∧ k.length = 1) ∨ code = 3 then (.resolved (-1), priorRaw)
    else if code = 13 then (.resolved selected, priorRaw)
    else if code = 27 ∧ k.length ≥ 3 then
      boxSelectLoop priorRaw items (arrowMove items.length k selected) ks
    else boxSelectLoop priorRaw items selected ks

/-- `boxSelect` (src/index.js 1300-1349): on a non-terminal stream it
resolves index 0 at once (line 1304). -/
def boxSelectRun (isTTY priorRaw : Bool) (items : List Str) (ks : List KeyEvent) :
    Resolution Int × Bool :=
  if isTTY then boxSelectLoop priorRaw items 0 ks
  else (.resolved 0, priorRaw)

/-- The key handler of `boxTextInput` (src/index.js 1382-1388). -/
def boxTextInputLoop (priorRaw : Bool) (buf : Str) :
    List KeyEvent → Resolution (Option Str) × Bool
  | [] => (.pending, true)
  | k :: ks =>
    let code := keyCode k
    if (code = 27 ∧ k.length = 1) ∨ code = 3 then (.resolved none, priorRaw)
    else if code = 13 then (.resolved (some buf), priorRaw)
    else if code = 127 ∨ code = 8 then boxTextInputLoop priorRaw buf.dropLast ks
    else if 32 ≤ code ∧ code < 127 then boxTextInputLoop priorRaw (buf ++ keyText k) ks
    else boxTextInputLoop priorRaw buf ks

/-- `boxTextInput` (src/index.js 1354-1393): on a non-terminal stream it
resolves null at once (line 1358). -/
def boxTextInputRun (isTTY priorRaw : Bool) (ks : List KeyEvent) :
    Resolution (Option Str) × Bool :=
  if isTTY then boxTextInputLoop priorRaw [] ks
  else (.resolved none, priorRaw)

/-! ## Concrete instances used to exercise the theorems -/

def demoRunTool : Str → ArgMap → ToolResult :=
  fun n _ => { output := "ran ".data ++ n, success := true }

def demoParseJson : Str → Option ArgMap := fun _ => none

def emptyTrace : ChatTrace := { msgs := [], prints := [] }

def demoToolCall1 : ToolCall :=
  { id := "call-1".data, fname := "tool_run".data, args := ToolArgs.text "x".data }

def demoToolCall2 : ToolCall :=
  { id := "call-2".data, fname := "tool_edit".data, args := ToolArgs.structured [] }

/-- A response carrying two tool calls and no completion finish reason. -/
def demoToolResponse : ApiResponse :=
  { choices := [{ message := { content := some "let me check".data
                               tool_calls := some [demoToolCall1, demoToolCall2] }
                  finish_reason := none }]
    usage := some { prompt_tokens := some 100, completion_tokens := some 100,
                    total_tokens := some 200 } }

def demoToolChoice : Choice :=
  { message := { content := some "let me check".data
                 tool_calls := some [demoToolCall1, demoToolCall2] }
    finish_reason := none }

/-- A response carrying one tool call together with finish reason `stop`. -/
def demoStopToolResponse : ApiResponse :=
  { choices := [{ message := { content := some "hi".data
                               tool_calls := some [demoToolCall1] }
                  finish_reason := some "stop".data }]
    usage := some { prompt_tokens := some 10, completion_tokens := some 20,
                    total_tokens := some 30 } }

def demoStopChoice : Choice :=
  { message := { content := some "hi".data, tool_calls := some [demoToolCall1] }
    finish_reason := some "stop".data }

/-- A final answer without tool calls. -/
def demoFinalResponse : ApiResponse :=
  { choices := [{ message := { content := some "all done".data, tool_calls := none }
                  finish_reason := some "stop".data }]
    usage := some { prompt_tokens := some 1, completion_tokens := some 2,
                    total_tokens := some 3 } }

def demoFinalChoice : Choice :=
  { message := { content := some "all done".data, tool_calls := none }
    finish_reason := some "stop".data }

def demoSession : Session :=
  { messages := [], totalTokens := 0, promptTokens := 0, completionTokens := 0 }

/-- A seven-message session for exercising `/compact`. -/
def demoLongSession : Session :=
  { messages := [userMsg "m1".data, assistantMsg "m2".data, userMsg "m3".data,
                 assistantMsg "m4".data, userMsg "m5".data, assistantMsg "m6".data,
                 userMsg "m7".data]
    totalTokens := 9, promptTokens := 4, completionTokens := 5 }

/-! ## Helper lemmas about `splitFirst` -/

theorem isPrefixOf_eq_true_iff : ∀ (p s : Str), p.isPrefixOf s = true ↔ ∃ t, p ++ t = s := by
  intro p
  induction p with
  | nil => intro s; simp [List.isPrefixOf]
  | cons a p ih =>
    intro s
    cases s with
    | nil => simp [List.isPrefixOf]
    | cons b s =>
      rw [List.isPrefixOf_cons₂]
      simp only [Bool.and_eq_true, beq_iff_eq, ih]
      constructor
      · rintro ⟨hab, t, ht⟩
        exact ⟨t, by rw [List.cons_append, hab, ht]⟩
      · rintro ⟨t, ht⟩
        rw [List.cons_append] at ht
        injection ht with h1 h2
        exact ⟨h1, t, h2⟩

theorem isPrefixOf_append_self (p t : Str) : p.isPrefixOf (p ++ t) = true := by
  rw [isPrefixOf_eq_true_iff]; exact ⟨t, rfl⟩

theorem splitFirst_cons_of_isPrefixOf {pat s : Str} (hs : s ≠ [])
    (hp : pat.isPrefixOf s = true) :
    splitFirst pat s = some ([], s.drop pat.length) := by
  cases s with
  | nil => exact absurd rfl hs
  | cons c cs => rw [splitFirst, if_pos hp]

theorem splitFirst_some_eq {pat : Str} :
    ∀ {s p rest : Str}, splitFirst pat s = some (p, rest) → s = p ++ pat ++ rest := by
  intro s
  induction s with
  | nil => intro p rest h; simp [splitFirst] at h
  | cons c cs ih =>
    intro p rest h
    rw [splitFirst] at h
    by_cases hp : pat.isPrefixOf (c :: cs) = true
    · rw [if_pos hp] at h
      injection h with h2
      injection h2 with hpre hrest
      obtain ⟨t, ht⟩ := (isPrefixOf_eq_true_iff pat (c :: cs)).mp hp
      subst hpre
      rw [List.nil_append, ← hrest, ← ht, List.drop_left]
    · rw [if_neg hp] at h
      cases hs : splitFirst pat cs with
      | none => rw [hs] at h; exact absurd h (by simp)
      | some pr =>
        obtain ⟨p0, r0⟩ := pr
        rw [hs] at h
        injection h with h2
        injection h2 with hpre hrest
        subst hpre hrest
        have hcs := ih hs
        rw [hcs]
        simp [List.append_assoc]

theorem splitFirst_isSome_parts (pat : Str) (hpat : pat ≠ []) :
    ∀ (x y : Str), (splitFirst pat (x ++ pat ++ y)).isSome = true := by
  intro x
  induction x with
  | nil =>
    intro y
    rw [List.nil_append]
    have hne : pat ++ y ≠ [] := by
      intro hcontra
      exact hpat (List.append_eq_nil.mp hcontra).1
    rw [splitFirst_cons_of_isPrefixOf hne (isPrefixOf_append_self pat y)]
    rfl
  | cons c x ih =>
    intro y
    simp only [List.cons_append]
    rw [splitFirst]
    by_cases hp : pat.isPrefixOf (c :: (x ++ pat ++ y)) = true
    · rw [if_pos hp]; rfl
    · rw [if_neg hp]
      have hih := ih y
      cases hs2 : splitFirst pat (x ++ pat ++ y) with
      | none => rw [hs2] at hih; simp at hih
      | some pr =>
        obtain ⟨p0, r0⟩ := pr
        rfl

theorem splitFirst_none_split {pat : Str} (hpat : pat ≠ []) {x y : Str}
    (h : splitFirst pat (x ++ y) = none) :
    splitFirst pat x = none ∧ splitFirst pat y = none := by
  constructor
  · cases hx : splitFirst pat x with
    | none => rfl
    | some pr =>
      obtain ⟨p, r⟩ := pr
      have hx2 := splitFirst_some_eq hx
      have hsome : (splitFirst pat (x ++ y)).isSome = true := by
        have hshape : x ++ y = p ++ pat ++ (r ++ y) := by
          rw [hx2]; simp [List.append_assoc]
        rw [hshape]
        exact splitFirst_isSome_parts pat hpat p (r ++ y)
      rw [h] at hsome; simp at hsome
  · cases hy : splitFirst pat y with
    | none => rfl
    | some pr =>
      obtain ⟨p, r⟩ := pr
      have hy2 := splitFirst_some_eq hy
      have hsome : (splitFirst pat (x ++ y)).isSome = true := by
        have hshape : x ++ y = (x ++ p) ++ pat ++ r := by
          rw [hy2]; simp [List.append_assoc]
        rw [hshape]
        exact splitFirst_isSome_parts pat hpat (x ++ p) r
      rw [h] at hsome; simp at hsome

theorem splitFirst_first_occurrence {pat : Str} {hc : Char}
    (hhead : ∃ ps, pat = hc :: ps) (htail : hc ∉ pat.tail) :
    ∀ (a b : Str), splitFirst pat a = none →
      splitFirst pat (a ++ pat ++ b) = some (a, b) := by
  obtain ⟨ps, hps⟩ := hhead
  have hpat : pat ≠ [] := by rw [hps]; simp
  intro a
  induction a with
  | nil =>
    intro b _
    rw [List.nil_append]
    have hne : pat ++ b ≠ [] := by
      intro hcontra
      exact hpat (List.append_eq_nil.mp hcontra).1
    rw [splitFirst_cons_of_isPrefixOf hne (isPrefixOf_append_self pat b), List.drop_left]
  | cons c a ih =>
    intro b h
    rw [splitFirst] at h
    by_cases hp : pat.isPrefixOf (c :: a) = true
    · rw [if_pos hp] at h; exact absurd h (by simp)
    · rw [if_neg hp] at h
      have ha : splitFirst pat a = none := by
        cases hs : splitFirst pat a with
        | none => rfl
        | some pr => rw [hs] at h; exact absurd h (by simp)
      simp only [List.cons_append]
      rw [splitFirst]
      have hfp : ¬ pat.isPrefixOf (c :: (a ++ pat ++ b)) = true := by
        intro hpf
        obtain ⟨t, htEq⟩ := (isPrefixOf_eq_true_iff pat _).mp hpf
        have htEq2 : pat ++ t = (c :: a) ++ (pat ++ b) := by
          rw [htEq]; simp [List.cons_append, List.append_assoc]
        by_cases hlen : pat.length ≤ (c :: a).length
        · apply hp
          rw [isPrefixOf_eq_true_iff]
          have hpeq : pat = (c :: a).take pat.length := by
            have hceq := congrArg (List.take pat.length) htEq2
            rw [List.take_append_of_le_length (le_refl pat.length), List.take_length,
              List.take_append_of_le_length hlen] at hceq
            exact hceq
          refine ⟨(c :: a).drop pat.length, ?_⟩
          conv_rhs => rw [← List.take_append_drop pat.length (c :: a)]
          rw [← hpeq]
        · push_neg at hlen
          have h1 : pat.take (c :: a).length = c :: a := by
            have hceq := congrArg (List.take (c :: a).length) htEq2
            rw [List.take_append_of_le_length (le_of_lt hlen),
              List.take_append_of_le_length (le_refl (c :: a).length),
              List.take_length] at hceq
            exact hceq
          have hsplit : pat = (c :: a) ++ pat.drop (c :: a).length := by
            conv_lhs => rw [← List.take_append_drop (c :: a).length pat]
            rw [h1]
          have hcancel : pat.drop (c :: a).length ++ t = pat ++ b := by
            have hstep : ((c :: a) ++ pat.drop (c :: a).length) ++ t
                = (c :: a) ++ (pat ++ b) := by
              rw [← hsplit]; exact htEq2
            rw [List.append_assoc] at hstep
            exact List.append_cancel_left hstep
          have hlen' : pat.drop (c :: a).length ≠ [] := by
            intro hnil
            have hl := congrArg List.length hsplit
            rw [hnil, List.append_nil] at hl
            rw [hl] at hlen
            exact lt_irrefl _ hlen
          obtain ⟨d, t2, ht2⟩ : ∃ d t2, pat.drop (c :: a).length = d :: t2 := by
            cases hdrop : pat.drop (c :: a).length with
            | nil => exact absurd hdrop hlen'
            | cons d t2 => exact ⟨d, t2, rfl⟩
          have hd : d = hc := by
            have h0 := congrArg List.head? hcancel
            rw [ht2, hps] at h0
            simp at h0
            exact h0
          apply htail
          rw [hps]
          show hc ∈ ps
          have hps2 : hc :: ps = (c :: a) ++ (d :: t2) := by
            rw [← hps, hsplit, ht2]
          rw [List.cons_append] at hps2
          injection hps2 with _ he2
          rw [he2, hd]
          exact List.mem_append_right a (List.mem_cons_self hc t2)
      rw [if_neg hfp, ih b ha]

theorem openTag_ne_nil : openTag ≠ [] := by decide

theorem closeTag_ne_nil : closeTag ≠ [] := by decide

theorem openTag_head : ∃ ps, openTag = '<' :: ps := ⟨"think>".data, by decide⟩

theorem closeTag_head : ∃ ps, closeTag = '<' :: ps := ⟨"/think>".data, by decide⟩

theorem openTag_tail : '<' ∉ openTag.tail := by decide

theorem closeTag_tail : '<' ∉ closeTag.tail := by decide

theorem openTag_length : openTag.length = 7 := by decide

theorem closeTag_length : closeTag.length = 8 := by decide

/-- Running the first replace pass over a well-formed decomposition removes
exactly the closed spans and leaves an unterminated tail untouched. -/
theorem stripClosedFuel_spans :
    ∀ (segs : List (Str × Str)) (t : Str) (u : Option Str) (fuel : Nat),
      (spansText segs t u).length ≤ fuel →
      splitFirst openTag (outsideText segs t) = none →
      (∀ p ∈ segs, splitFirst closeTag p.2 = none) →
      noCloseTagIn u = true →
      stripClosedFuel fuel (spansText segs t u) =
        outsideText segs t ++ (match u with | none => [] | some v => openTag ++ v) := by
  intro segs
  induction segs with
  | nil =>
    intro t u fuel hfuel hout hins hu
    cases u with
    | none =>
      simp only [spansText, outsideText] at hfuel hout ⊢
      rw [List.append_nil]
      cases fuel with
      | zero => rfl
      | succ f => rw [stripClosedFuel, hout]
    | some v =>
      simp only [spansText, outsideText] at hfuel hout ⊢
      have hvnone : splitFirst closeTag v = none := by
        simp only [noCloseTagIn] at hu
        exact Option.isNone_iff_eq_none.mp hu
      cases fuel with
      | zero =>
        exfalso
        rw [List.length_append, List.length_append, openTag_length] at hfuel
        omega
      | succ f =>
        rw [stripClosedFuel]
        simp only [splitFirst_first_occurrence openTag_head openTag_tail t v hout, hvnone]
        rw [List.append_assoc]
  | cons seg rest ih =>
    obtain ⟨t0, s0⟩ := seg
    intro t u fuel hfuel hout hins hu
    simp only [spansText, outsideText] at hfuel hout ⊢
    have hout2 := splitFirst_none_split openTag_ne_nil hout
    have hs0 : splitFirst closeTag s0 = none := hins (t0, s0) (List.mem_cons_self _ _)
    have hins2 : ∀ p ∈ rest, splitFirst closeTag p.2 = none :=
      fun p hp => hins p (List.mem_cons_of_mem _ hp)
    have hshape : t0 ++ openTag ++ s0 ++ closeTag ++ spansText rest t u
        = t0 ++ openTag ++ (s0 ++ closeTag ++ spansText rest t u) := by
      simp [List.append_assoc]
    cases fuel with
    | zero =>
      exfalso
      rw [List.length_append, List.length_append, List.length_append, List.length_append,
        openTag_length, closeTag_length] at hfuel
      omega
    | succ f =>
      have hlenR : (spansText rest t u).length ≤ f := by
        rw [List.length_append, List.length_append, List.length_append, List.length_append,
          openTag_length, closeTag_length] at hfuel
        omega
      rw [hshape, stripClosedFuel]
      simp only [splitFirst_first_occurrence openTag_head openTag_tail t0
          (s0 ++ closeTag ++ spansText rest t u) hout2.1,
        splitFirst_first_occurrence closeTag_head closeTag_tail s0
          (spansText rest t u) hs0,
        ih t u f hlenR hout2.2 hins2 hu]
      rw [List.append_assoc]

/-- The two-pass thinking strip followed by trim, on any well-formed
decomposition: the closed spans and the unterminated tail are removed and
the trimmed outside text remains. -/
theorem cleanContent_spans (segs : List (Str × Str)) (t : Str) (u : Option Str)
    (hout : splitFirst openTag (outsideText segs t) = none)
    (hins : ∀ p ∈ segs, splitFirst closeTag p.2 = none)
    (hu : noCloseTagIn u = true) :
    cleanContent (spansText segs t u) = jsTrim (outsideText segs t) := by
  rw [cleanContent, stripClosed,
    stripClosedFuel_spans segs t u (spansText segs t u).length (le_refl _) hout hins hu]
  cases u with
  | none => rw [List.append_nil, stripOpen, hout]
  | some v =>
    have hassoc : outsideText segs t ++ (openTag ++ v)
        = outsideText segs t ++ openTag ++ v := by
      rw [List.append_assoc]
    rw [hassoc, stripOpen,
      splitFirst_first_occurrence openTag_head openTag_tail (outsideText segs t) v hout]

/-! ## Helper lemmas about the chat loop -/

theorem chatGo_fail (runTool : Str → ArgMap → ToolResult) (parseJson : Str → Option ArgMap)
    (m : Str) (rest : List FetchOutcome) (tr : ChatTrace) :
    chatGo runTool parseJson (FetchOutcome.fail m :: rest) tr =
      ChatEnd.abortedNull { tr with prints := tr.prints ++ [errorLogText m] } := rfl

theorem chatGo_final (runTool : Str → ArgMap → ToolResult) (parseJson : Str → Option ArgMap)
    (data : ApiResponse) (rest : List FetchOutcome) (tr : ChatTrace) (choice : Choice)
    (hchoice : data.choices.head? = some choice)
    (hnotc : choice.message.tool_calls.getD [] = []) :
    chatGo runTool parseJson (FetchOutcome.ok data :: rest) tr =
      ChatEnd.finished
        { content := cleanContent (choice.message.content.getD [])
          promptTokens := (data.usage.bind Usage.prompt_tokens).getD 0
          completionTokens := (data.usage.bind Usage.completion_tokens).getD 0
          totalTokens := (data.usage.bind Usage.total_tokens).getD 0 }
        { tr with prints := tr.prints ++
            (if cleanContent (choice.message.content.getD []) = [] then []
             else [chalkSays (cleanContent (choice.message.content.getD []))]) } := by
  rw [chatGo]
  simp only [hchoice, hnotc]

theorem chatGo_toolstep (runTool : Str → ArgMap → ToolResult) (parseJson : Str → Option ArgMap)
    (data : ApiResponse) (rest : List FetchOutcome) (tr : ChatTrace) (choice : Choice)
    (tc : ToolCall) (tcs : List ToolCall)
    (hchoice : data.choices.head? = some choice)
    (htcs : choice.message.tool_calls.getD [] = tc :: tcs) :
    chatGo runTool parseJson (FetchOutcome.ok data :: rest) tr =
      (if stopish choice.finish_reason then
        ChatEnd.doneNull (toolRoundTrace runTool parseJson choice tc tcs tr)
      else chatGo runTool parseJson rest (toolRoundTrace runTool parseJson choice tc tcs tr)) := by
  rw [chatGo]
  simp only [hchoice, htcs]

theorem chatGo_toolRounds (runTool : Str → ArgMap → ToolResult) (parseJson : Str → Option ArgMap) :
    ∀ (rounds : List FetchOutcome), (∀ r ∈ rounds, isToolRound r = true) →
      ∀ (rest : List FetchOutcome) (tr : ChatTrace),
        ∃ tr2 : ChatTrace,
          chatGo runTool parseJson (rounds ++ rest) tr = chatGo runTool parseJson rest tr2 ∧
          ∃ extra, tr2.prints = tr.prints ++ extra := by
  intro rounds
  induction rounds with
  | nil =>
    intro _ rest tr
    exact ⟨tr, rfl, [], by rw [List.append_nil]⟩
  | cons r rounds ih =>
    intro hr rest tr
    have hr0 : isToolRound r = true := hr r (List.mem_cons_self _ _)
    have hr2 : ∀ x ∈ rounds, isToolRound x = true :=
      fun x hx => hr x (List.mem_cons_of_mem _ hx)
    cases r with
    | fail m => exact absurd hr0 (by simp [isToolRound])
    | ok data =>
      cases hchoice : data.choices.head? with
      | none => simp [isToolRound, hchoice] at hr0
      | some choice =>
        cases htcs : choice.message.tool_calls.getD [] with
        | nil => simp [isToolRound, hchoice, htcs] at hr0
        | cons tc tcs =>
          have hstop : stopish choice.finish_reason = false := by
            simp only [isToolRound, hchoice, htcs, Bool.not_eq_true'] at hr0
            exact hr0
          rw [List.cons_append,
            chatGo_toolstep runTool parseJson data (rounds ++ rest) tr choice tc tcs hchoice htcs,
            hstop, if_neg (by simp)]
          obtain ⟨tr2, heq, extra, hpr⟩ :=
            ih hr2 rest (toolRoundTrace runTool parseJson choice tc tcs tr)
          refine ⟨tr2, heq, sideText choice.message ++ extra, ?_⟩
          rw [hpr, toolRoundTrace, List.append_assoc]

/-! ## Helper lemmas about raw-mode restoration -/

theorem menuLoop_resolved_mode (priorRaw : Bool) :
    ∀ (ks : List KeyEvent) (filter : Str) (selected : Int) (filtered : List SlashCmd)
      (r : Option Str) (m : Bool),
      menuLoop priorRaw filter selected filtered ks = (.resolved r, m) → m = priorRaw := by
  intro ks
  induction ks with
  | nil =>
    intro f s fl r m h
    simp only [menuLoop] at h
    exact absurd h (by simp)
  | cons k ks ih =>
    intro f s fl r m h
    simp only [menuLoop] at h
    split_ifs at h
    all_goals first
      | (injection h with h1 h2; exact h2.symm)
      | exact ih _ _ _ _ _ h

theorem boxSelectLoop_resolved_mode (priorRaw : Bool) (items : List Str) :
    ∀ (ks : List KeyEvent) (selected : Int) (r : Int) (m : Bool),
      boxSelectLoop priorRaw items selected ks = (.resolved r, m) → m = priorRaw := by
  intro ks
  induction ks with
  | nil =>
    intro s r m h
    simp only [boxSelectLoop] at h
    exact absurd h (by simp)
  | cons k ks ih =>
    intro s r m h
    simp only [boxSelectLoop] at h
    split_ifs at h
    all_goals first
      | (injection h with h1 h2; exact h2.symm)
      | exact ih _ _ _ h

theorem boxTextInputLoop_resolved_mode (priorRaw : Bool) :
    ∀ (ks : List KeyEvent) (buf : Str) (r : Option Str) (m : Bool),
      boxTextInputLoop priorRaw buf ks = (.resolved r, m) → m = priorRaw := by
  intro ks
  induction ks with
  | nil =>
    intro buf r m h
    simp only [boxTextInputLoop] at h
    exact absurd h (by simp)
  | cons k ks ih =>
    intro buf r m h
    simp only [boxTextInputLoop] at h
    split_ifs at h
    all_goals first
      | (injection h with h1 h2; exact h2.symm)
      | exact ih _ _ _ h

theorem rawInputLoop_resolved_mode :
    ∀ (ks : List KeyEvent) (buf : Str) (r : Option RawLineResult) (m : Bool),
      rawInputLoop buf ks = (.resolved r, m) → m = false := by
  intro ks
  induction ks with
  | nil =>
    intro buf r m h
    simp only [rawInputLoop] at h
    exact absurd h (by simp)
  | cons k ks ih =>
    intro buf r m h
    simp only [rawInputLoop] at h
    split_ifs at h
    all_goals first
      | (injection h with h1 h2; exact h2.symm)
      | exact ih _ _ _ h

/-! ## Claims -/

/-- C1: for every model response carrying N >= 1 tool calls processed by the
chat loop, exactly N tool-role result entries are appended to the outgoing
transcript, in the same order as the tool calls appeared, each carrying the
originating call's id as its `tool_call_id`; the appended transcript `tr2`
is the state from which the loop either exits (completion finish reason) or
issues the next model request, so all results are in place before that
request. -/
theorem c1_tool_round (runTool : Str → ArgMap → ToolResult) (parseJson : Str → Option ArgMap)
    (data : ApiResponse) (rest : List FetchOutcome) (tr : ChatTrace)
    (choice : Choice) (tc0 : ToolCall) (tcs : List ToolCall)
    (hchoice : data.choices.head? = some choice)
    (htcs : choice.message.tool_calls.getD [] = tc0 :: tcs) :
    ∃ tr2 : ChatTrace,
      tr2.msgs = tr.msgs ++ [assistantToolMsg choice.message]
          ++ (tc0 :: tcs).map (toolResultMsg runTool parseJson) ∧
      ((tc0 :: tcs).map (toolResultMsg runTool parseJson)).length = (tc0 :: tcs).length ∧
      (∀ (i : Nat) (msg : ApiMsg),
        ((tc0 :: tcs).map (toolResultMsg runTool parseJson))[i]? = some msg →
          msg.role = Role.tool ∧
          ∃ tc, (tc0 :: tcs)[i]? = some tc ∧ msg.tool_call_id = some tc.id) ∧
      chatGo runTool parseJson (FetchOutcome.ok data :: rest) tr =
        (if stopish choice.finish_reason then ChatEnd.doneNull tr2
         else chatGo runTool parseJson rest tr2) := by
  refine ⟨toolRoundTrace runTool parseJson choice tc0 tcs tr, rfl, by simp, ?_,
    chatGo_toolstep runTool parseJson data rest tr choice tc0 tcs hchoice htcs⟩
  intro i msg hmsg
  rw [List.getElem?_map] at hmsg
  cases htc : (tc0 :: tcs)[i]? with
  | none => rw [htc] at hmsg; exact absurd hmsg (by simp)
  | some tc =>
    rw [htc] at hmsg
    injection hmsg with hm
    subst hm
    exact ⟨rfl, tc, rfl, rfl⟩

/-- Witness for C1 at a concrete response carrying two tool calls. -/
theorem c1_tool_round_witness :
    (demoToolResponse.choices.head? = some demoToolChoice ∧
     demoToolChoice.message.tool_calls.getD [] = demoToolCall1 :: [demoToolCall2]) ∧
    (∃ tr2 : ChatTrace,
      tr2.msgs = emptyTrace.msgs ++ [assistantToolMsg demoToolChoice.message]
          ++ (demoToolCall1 :: [demoToolCall2]).map (toolResultMsg demoRunTool demoParseJson) ∧
      ((demoToolCall1 :: [demoToolCall2]).map (toolResultMsg demoRunTool demoParseJson)).length
          = (demoToolCall1 :: [demoToolCall2]).length ∧
      (∀ (i : Nat) (msg : ApiMsg),
        ((demoToolCall1 :: [demoToolCall2]).map (toolResultMsg demoRunTool demoParseJson))[i]?
            = some msg →
          msg.role = Role.tool ∧
          ∃ tc, (demoToolCall1 :: [demoToolCall2])[i]? = some tc ∧
            msg.tool_call_id = some tc.id) ∧
      chatGo demoRunTool demoParseJson (FetchOutcome.ok demoToolResponse :: []) emptyTrace =
        (if stopish demoToolChoice.finish_reason then ChatEnd.doneNull tr2
         else chatGo demoRunTool demoParseJson [] tr2)) :=
  ⟨⟨rfl, rfl⟩,
   c1_tool_round demoRunTool demoParseJson demoToolResponse [] emptyTrace demoToolChoice
     demoToolCall1 [demoToolCall2] rfl rfl⟩

/-- C2 counterexample: a response that carries one tool call together with
finish reason "stop" makes the loop transition to done, yet `chat` returns
null rather than the response's content and usage counts (10/20/30), which
the claim requires. -/
theorem c2_counterexample :
    chatReturn (chat demoRunTool demoParseJson [FetchOutcome.ok demoStopToolResponse]
      "sys".data []) = none ∧
    isDoneNull (chat demoRunTool demoParseJson [FetchOutcome.ok demoStopToolResponse]
      "sys".data []) = true := by
  constructor <;> rfl

/-- C2 (amended): a model response with no tool calls makes the loop
transition to done and return the stripped content together with the usage
counts, each defaulting to zero when absent, printing the content when
non-empty; a response that carries tool calls but whose finish reason
indicates completion also ends the loop, after appending the round's tool
results, but returns null rather than content and counts. -/
theorem c2_final_response (runTool : Str → ArgMap → ToolResult) (parseJson : Str → Option ArgMap)
    (data : ApiResponse) (rest : List FetchOutcome) (tr : ChatTrace) (choice : Choice)
    (hchoice : data.choices.head? = some choice) :
    (choice.message.tool_calls.getD [] = [] →
      chatGo runTool parseJson (FetchOutcome.ok data :: rest) tr =
        ChatEnd.finished
          { content := cleanContent (choice.message.content.getD [])
            promptTokens := (data.usage.bind Usage.prompt_tokens).getD 0
            completionTokens := (data.usage.bind Usage.completion_tokens).getD 0
            totalTokens := (data.usage.bind Usage.total_tokens).getD 0 }
          { tr with prints := tr.prints ++
              (if cleanContent (choice.message.content.getD []) = [] then []
               else [chalkSays (cleanContent (choice.message.content.getD []))]) }) ∧
    (∀ tc tcs, choice.message.tool_calls.getD [] = tc :: tcs →
      stopish choice.finish_reason = true →
      chatGo runTool parseJson (FetchOutcome.ok data :: rest) tr =
        ChatEnd.doneNull (toolRoundTrace runTool parseJson choice tc tcs tr) ∧
      chatReturn (chatGo runTool parseJson (FetchOutcome.ok data :: rest) tr) = none) := by
  constructor
  · intro hnotc
    exact chatGo_final runTool parseJson data rest tr choice hchoice hnotc
  · intro tc tcs htcs hstop
    have hstep := chatGo_toolstep runTool parseJson data rest tr choice tc tcs hchoice htcs
    constructor
    · rw [hstep, hstop]; simp
    · rw [hstep, hstop]; simp [chatReturn]

/-- Witness for C2 (amended) at a concrete final answer with usage 1/2/3. -/
theorem c2_final_response_witness :
    (demoFinalResponse.choices.head? = some demoFinalChoice ∧
     demoFinalChoice.message.tool_calls.getD [] = []) ∧
    chatGo demoRunTool demoParseJson (FetchOutcome.ok demoFinalResponse :: []) emptyTrace =
      ChatEnd.finished
        { content := cleanContent (demoFinalChoice.message.content.getD [])
          promptTokens := (demoFinalResponse.usage.bind Usage.prompt_tokens).getD 0
          completionTokens := (demoFinalResponse.usage.bind Usage.completion_tokens).getD 0
          totalTokens := (demoFinalResponse.usage.bind Usage.total_tokens).getD 0 }
        { emptyTrace with prints := emptyTrace.prints ++
            (if cleanContent (demoFinalChoice.message.content.getD []) = [] then []
             else [chalkSays (cleanContent (demoFinalChoice.message.content.getD []))]) } :=
  ⟨⟨rfl, rfl⟩,
   (c2_final_response demoRunTool demoParseJson demoFinalResponse [] emptyTrace
     demoFinalChoice rfl).1 rfl⟩

/-- C3: a transport failure, timeout or non-2xx response at any round of a
chat turn makes `chat` log the error and end with the null-returning abort,
and the REPL turn leaves the session exactly as it was before the call:
only the user message appended before the turn remains, and the token
counters are untouched. -/
theorem c3_transport_failure (runTool : Str → ArgMap → ToolResult)
    (parseJson : Str → Option ArgMap) (rounds rest : List FetchOutcome)
    (emsg systemPrompt : Str) (ctx : Session) (userText : Str)
    (hr : ∀ r ∈ rounds, isToolRound r = true) :
    replTurn runTool parseJson (rounds ++ FetchOutcome.fail emsg :: rest) systemPrompt ctx
        userText =
      { ctx with messages := ctx.messages ++ [userMsg userText] } ∧
    ∃ tr2 : ChatTrace,
      chat runTool parseJson (rounds ++ FetchOutcome.fail emsg :: rest) systemPrompt
          (ctx.messages ++ [userMsg userText]) = ChatEnd.abortedNull tr2 ∧
      errorLogText emsg ∈ tr2.prints := by
  obtain ⟨tr2, heq, extra, hpr⟩ := chatGo_toolRounds runTool parseJson rounds hr
    (FetchOutcome.fail emsg :: rest)
    { msgs := { role := .system, content := some systemPrompt,
                tool_calls := [], tool_call_id := none }
        :: (ctx.messages ++ [userMsg userText]).map sessionApiMsg
      prints := [] }
  have hchat : chat runTool parseJson (rounds ++ FetchOutcome.fail emsg :: rest) systemPrompt
      (ctx.messages ++ [userMsg userText])
      = ChatEnd.abortedNull { tr2 with prints := tr2.prints ++ [errorLogText emsg] } := by
    rw [chat, heq, chatGo_fail]
  constructor
  · simp only [replTurn]
    rw [hchat]
    rfl
  · exact ⟨{ tr2 with prints := tr2.prints ++ [errorLogText emsg] }, hchat, by simp⟩

/-- Witness for C3: one successful tool round, then a failed fetch. -/
theorem c3_transport_failure_witness :
    (∀ r ∈ [FetchOutcome.ok demoToolResponse], isToolRound r = true) ∧
    (replTurn demoRunTool demoParseJson
        ([FetchOutcome.ok demoToolResponse] ++ FetchOutcome.fail "boom".data :: [])
        "sys".data demoSession "hello".data =
      { demoSession with messages := demoSession.messages ++ [userMsg "hello".data] } ∧
    ∃ tr2 : ChatTrace,
      chat demoRunTool demoParseJson
          ([FetchOutcome.ok demoToolResponse] ++ FetchOutcome.fail "boom".data :: [])
          "sys".data (demoSession.messages ++ [userMsg "hello".data]) =
        ChatEnd.abortedNull tr2 ∧
      errorLogText "boom".data ∈ tr2.prints) :=
  ⟨by decide,
   c3_transport_failure demoRunTool demoParseJson [FetchOutcome.ok demoToolResponse] []
     "boom".data "sys".data demoSession "hello".data (by decide)⟩

/-- C4 counterexample: the displayed/returned result is trimmed, so the
regular text surrounding a stripped span is not preserved verbatim: the
content " x <think>a</think>" yields "x", not " x ". -/
theorem c4_counterexample :
    cleanContent " x <think>a</think>".data = "x".data ∧
    cleanContent " x <think>a</think>".data ≠ " x ".data := by
  constructor <;> decide

/-- C4 (amended): on a well-formed decomposition - outside text free of
opening delimiters, span bodies and the unterminated tail free of closing
delimiters - the transform removes every closed span and the unterminated
tail, and the surrounding regular text is preserved in order, except that
the final result is trimmed of leading and trailing whitespace. -/
theorem c4_thinking_strip (segs : List (Str × Str)) (t : Str) (u : Option Str)
    (hout : splitFirst openTag (outsideText segs t) = none)
    (hins : ∀ p ∈ segs, splitFirst closeTag p.2 = none)
    (hu : noCloseTagIn u = true) :
    cleanContent (spansText segs t u) = jsTrim (outsideText segs t) :=
  cleanContent_spans segs t u hout hins hu

/-- Witness for C4 (amended): two outside segments, one closed span and one
unterminated opener. -/
theorem c4_thinking_strip_witness :
    (splitFirst openTag (outsideText [(" a ".data, " hidden ".data)] " b ".data) = none ∧
     (∀ p ∈ [(" a ".data, " hidden ".data)], splitFirst closeTag p.2 = none) ∧
     noCloseTagIn (some "open thought".data) = true) ∧
    cleanContent (spansText [(" a ".data, " hidden ".data)] " b ".data
        (some "open thought".data)) =
      jsTrim (outsideText [(" a ".data, " hidden ".data)] " b ".data) :=
  ⟨⟨by decide, by decide, by decide⟩,
   c4_thinking_strip [(" a ".data, " hidden ".data)] " b ".data (some "open thought".data)
     (by decide) (by decide) (by decide)⟩

/-- C5 counterexample: "/c" is a proper prefix of four catalog names
(/clear, /config, /cost, /compact), yet the current REPL prints the
unknown-command report instead of an ambiguity report listing the
candidates, and dispatches nothing. -/
theorem c5_counterexample :
    (SLASH_COMMANDS.filter (fun c => "/c".data.isPrefixOf c.name)).length = 4 ∧
    resolveSlashInput "/c".data =
      SlashOutcome.unknownReport "Unknown command: /c. Type / to see all.".data := by
  constructor <;> decide

/-- C5 (amended): for a typed slash input that is not an exact command
name, exactly one prefix match dispatches that entry; otherwise - whether
no name or several names start with the typed text - the unknown-command
report is printed and no handler executes. -/
theorem c5_resolution (input : Str)
    (hne : SLASH_COMMANDS.find? (fun c => c.name == input) = none) :
    ((SLASH_COMMANDS.filter (fun c => input.isPrefixOf c.name)).length = 1 →
      ∃ c, c ∈ SLASH_COMMANDS ∧ input.isPrefixOf c.name = true ∧
        resolveSlashInput input = SlashOutcome.dispatched c.name) ∧
    ((SLASH_COMMANDS.filter (fun c => input.isPrefixOf c.name)).length ≠ 1 →
      resolveSlashInput input = SlashOutcome.unknownReport
        ("Unknown command: ".data ++ input ++ ". Type / to see all.".data)) := by
  constructor
  · intro h1
    have h0 : 0 < (SLASH_COMMANDS.filter (fun c => input.isPrefixOf c.name)).length := by
      omega
    refine ⟨(SLASH_COMMANDS.filter (fun c => input.isPrefixOf c.name)).get ⟨0, h0⟩, ?_, ?_, ?_⟩
    · have hmem := List.get_mem (SLASH_COMMANDS.filter (fun c => input.isPrefixOf c.name)) 0 h0
      exact (List.mem_filter.mp hmem).1
    · have hmem := List.get_mem (SLASH_COMMANDS.filter (fun c => input.isPrefixOf c.name)) 0 h0
      exact (List.mem_filter.mp hmem).2
    · simp only [resolveSlashInput, hne]
      rw [dif_pos h1]
  · intro h2
    simp only [resolveSlashInput, hne]
    rw [dif_neg h2]

/-- Witness for C5 (amended): "/he" prefix-matches only /help. -/
theorem c5_resolution_witness :
    (SLASH_COMMANDS.find? (fun c => c.name == "/he".data) = none ∧
     (SLASH_COMMANDS.filter (fun c => "/he".data.isPrefixOf c.name)).length = 1) ∧
    (∃ c, c ∈ SLASH_COMMANDS ∧ "/he".data.isPrefixOf c.name = true ∧
      resolveSlashInput "/he".data = SlashOutcome.dispatched c.name) :=
  ⟨⟨by decide, by decide⟩, (c5_resolution "/he".data (by decide)).1 (by decide)⟩

/-- C6: `/compact` acts only when more than 6 messages exist, in which case
exactly the last 4 remain, in their original order (the kept suffix follows
the discarded front), with the token counters untouched; with 6 or fewer
messages the session is unchanged and the already-short notice is
reported. -/
theorem c6_compact (ctx : Session) :
    (ctx.messages.length > 6 →
      (handleCompact ctx).1.messages.length = 4 ∧
      ctx.messages.take (ctx.messages.length - 4) ++ (handleCompact ctx).1.messages
        = ctx.messages ∧
      (handleCompact ctx).1.promptTokens = ctx.promptTokens ∧
      (handleCompact ctx).1.completionTokens = ctx.completionTokens ∧
      (handleCompact ctx).1.totalTokens = ctx.totalTokens) ∧
    (ctx.messages.length ≤ 6 →
      (handleCompact ctx).1 = ctx ∧
      (handleCompact ctx).2 = "Conversation is already short.".data) := by
  constructor
  · intro h
    have hpos : handleCompact ctx =
        ({ ctx with messages := ctx.messages.drop (ctx.messages.length - 4) },
         "Compacted. Kept last ".data
           ++ (toString (ctx.messages.drop (ctx.messages.length - 4)).length).data
           ++ " messages.".data) := by
      simp only [handleCompact, if_pos h]
    rw [hpos]
    refine ⟨?_, ?_, rfl, rfl, rfl⟩
    · rw [List.length_drop]
      omega
    · exact List.take_append_drop _ _
  · intro h
    have h2 : ¬ ctx.messages.length > 6 := by omega
    have hneg : handleCompact ctx = (ctx, "Conversation is already short.".data) := by
      simp only [handleCompact, if_neg h2]
    rw [hneg]
    exact ⟨rfl, rfl⟩

/-- Witness for C6 at a seven-message session. -/
theorem c6_compact_witness :
    demoLongSession.messages.length > 6 ∧
    ((handleCompact demoLongSession).1.messages.length = 4 ∧
     demoLongSession.messages.take (demoLongSession.messages.length - 4)
         ++ (handleCompact demoLongSession).1.messages = demoLongSession.messages ∧
     (handleCompact demoLongSession).1.promptTokens = demoLongSession.promptTokens ∧
     (handleCompact demoLongSession).1.completionTokens = demoLongSession.completionTokens ∧
     (handleCompact demoLongSession).1.totalTokens = demoLongSession.totalTokens) :=
  ⟨by decide, (c6_compact demoLongSession).1 (by decide)⟩

/-- C7: a run-shell-command confirmation answered with an explicit "n" or
"no" (after trimming and lowercasing) never executes the command and yields
the fixed denial result with success=false; any other answer (the empty
default included) approves execution. -/
theorem c7_denial (rawAnswer : Str) (exec : ExecOutcome) :
    (normalizeAnswer rawAnswer = "n".data ∨ normalizeAnswer rawAnswer = "no".data →
      execToolRun rawAnswer exec = (deniedRunResult, false)) ∧
    (¬(normalizeAnswer rawAnswer = "n".data ∨ normalizeAnswer rawAnswer = "no".data) →
      (execToolRun rawAnswer exec).2 = true) := by
  constructor
  · intro h
    simp only [execToolRun, if_pos h]
  · intro h
    simp only [execToolRun, if_neg h]
    cases exec with
    | ok out => rfl
    | err souto serro msg => rfl

/-- Witness for C7: the answer " No " is trimmed and lowercased to "no" and
denies a command whose execution would have succeeded. -/
theorem c7_denial_witness :
    (normalizeAnswer " No ".data = "n".data ∨ normalizeAnswer " No ".data = "no".data) ∧
    execToolRun " No ".data (ExecOutcome.ok "hi".data) = (deniedRunResult, false) :=
  ⟨by decide, (c7_denial " No ".data (ExecOutcome.ok "hi".data)).1 (by decide)⟩

/-- C8 counterexample: `rawInput` acquires raw mode and then unconditionally
disables it on exit (src/index.js 1831), so with raw mode previously on
(priorRaw = true) a submit by Enter leaves the terminal in non-raw mode,
not in its prior mode. -/
theorem c8_counterexample :
    rawInputRun true true none [[13]]
      = (Resolution.resolved (some { text := [], isSlash := false }), false) ∧
    (rawInputRun true true none [[13]]).2 ≠ true := by
  constructor <;> decide

/-- C8 (amended): whenever a key script makes the primitive resolve - by
submit, cancellation, interrupt or EOF - the slash palette and the boxed
dialogs (list selector and text input) exit with the terminal raw-mode flag
restored to its prior value, while the line-input primitive `rawInput`
exits with raw mode unconditionally disabled, which equals the prior mode
only when the terminal was not already raw (as at its sole call site). -/
theorem c8_raw_mode (priorRaw : Bool) (ks : List KeyEvent) :
    (∀ (filter : Str) (selected : Int) (filtered : List SlashCmd) (r : Option Str) (m : Bool),
      menuLoop priorRaw filter selected filtered ks = (.resolved r, m) → m = priorRaw) ∧
    (∀ (items : List Str) (selected : Int) (r : Int) (m : Bool),
      boxSelectLoop priorRaw items selected ks = (.resolved r, m) → m = priorRaw) ∧
    (∀ (buf : Str) (r : Option Str) (m : Bool),
      boxTextInputLoop priorRaw buf ks = (.resolved r, m) → m = priorRaw) ∧
    (∀ (buf : Str) (r : Option RawLineResult) (m : Bool),
      rawInputLoop buf ks = (.resolved r, m) → m = false) :=
  ⟨fun f s fl r m h => menuLoop_resolved_mode priorRaw ks f s fl r m h,
   fun items s r m h => boxSelectLoop_resolved_mode priorRaw items ks s r m h,
   fun buf r m h => boxTextInputLoop_resolved_mode priorRaw ks buf r m h,
   fun buf r m h => rawInputLoop_resolved_mode ks buf r m h⟩

/-- Witness for C8 (amended): an interrupt (Ctrl+C) resolves all four
primitives; the palette and dialogs report the prior mode back, the line
input reports non-raw. -/
theorem c8_raw_mode_witness :
    (menuLoop true [] 0 SLASH_COMMANDS [[3]] = (Resolution.resolved none, true) ∧
     (true : Bool) = true) ∧
    (boxSelectLoop true ["x".data] 0 [[3]] = (Resolution.resolved (-1), true) ∧
     (true : Bool) = true) ∧
    (boxTextInputLoop true [] [[3]] = (Resolution.resolved none, true) ∧
     (true : Bool) = true) ∧
    (rawInputLoop [] [[3]]
        = (Resolution.resolved (some { text := [], isSlash := false }), false) ∧
     (false : Bool) = false) :=
  ⟨⟨by decide, (c8_raw_mode true [[3]]).1 [] 0 SLASH_COMMANDS none true (by decide)⟩,
   ⟨by decide, (c8_raw_mode true [[3]]).2.1 ["x".data] 0 (-1) true (by decide)⟩,
   ⟨by decide, (c8_raw_mode true [[3]]).2.2.1 [] none true (by decide)⟩,
   ⟨by decide, (c8_raw_mode true [[3]]).2.2.2 [] (some { text := [], isSlash := false }) false
     (by decide)⟩⟩

/-- C9: on a non-terminal input stream the boxed list selector resolves
immediately with index 0 - silently selecting the first item rather than
resolving as cancelled - unlike the slash palette and the boxed text input,
which resolve as cancelled (null); none of them touches the raw-mode
flag. -/
theorem c9_non_tty (priorRaw : Bool) (items : List Str) (ks1 ks2 ks3 : List KeyEvent) :
    boxSelectRun false priorRaw items ks1 = (Resolution.resolved 0, priorRaw) ∧
    showSlashMenuRun false priorRaw ks2 = (Resolution.resolved none, priorRaw) ∧
    boxTextInputRun false priorRaw ks3 = (Resolution.resolved none, priorRaw) :=
  ⟨rfl, rfl, rfl⟩

/-- C10: when a turn consists of tool-call rounds followed by a final
response without tool calls, the token counts returned by `chat`, and the
amounts added to the session counters by the REPL turn, come solely from
the final response's usage metadata - whatever usage the earlier responses
of the same turn reported is discarded. -/
theorem c10_final_usage (runTool : Str → ArgMap → ToolResult)
    (parseJson : Str → Option ArgMap) (rounds rest : List FetchOutcome)
    (data : ApiResponse) (choice : Choice) (systemPrompt : Str) (ctx : Session)
    (userText : Str)
    (hr : ∀ r ∈ rounds, isToolRound r = true)
    (hchoice : data.choices.head? = some choice)
    (hnotc : choice.message.tool_calls.getD [] = []) :
    (∃ res : ChatResult,
      chatReturn (chat runTool parseJson (rounds ++ FetchOutcome.ok data :: rest) systemPrompt
          (ctx.messages ++ [userMsg userText])) = some res ∧
      res.content = cleanContent (choice.message.content.getD []) ∧
      res.promptTokens = (data.usage.bind Usage.prompt_tokens).getD 0 ∧
      res.completionTokens = (data.usage.bind Usage.completion_tokens).getD 0 ∧
      res.totalTokens = (data.usage.bind Usage.total_tokens).getD 0) ∧
    (replTurn runTool parseJson (rounds ++ FetchOutcome.ok data :: rest) systemPrompt ctx
        userText).promptTokens
      = ctx.promptTokens + (data.usage.bind Usage.prompt_tokens).getD 0 ∧
    (replTurn runTool parseJson (rounds ++ FetchOutcome.ok data :: rest) systemPrompt ctx
        userText).completionTokens
      = ctx.completionTokens + (data.usage.bind Usage.completion_tokens).getD 0 ∧
    (replTurn runTool parseJson (rounds ++ FetchOutcome.ok data :: rest) systemPrompt ctx
        userText).totalTokens
      = ctx.totalTokens + (data.usage.bind Usage.total_tokens).getD 0 := by
  obtain ⟨tr2, heq, extra, hpr⟩ := chatGo_toolRounds runTool parseJson rounds hr
    (FetchOutcome.ok data :: rest)
    { msgs := { role := .system, content := some systemPrompt,
                tool_calls := [], tool_call_id := none }
        :: (ctx.messages ++ [userMsg userText]).map sessionApiMsg
      prints := [] }
  have hchat : chat runTool parseJson (rounds ++ FetchOutcome.ok data :: rest) systemPrompt
      (ctx.messages ++ [userMsg userText])
      = ChatEnd.finished
          { content := cleanContent (choice.message.content.getD [])
            promptTokens := (data.usage.bind Usage.prompt_tokens).getD 0
            completionTokens := (data.usage.bind Usage.completion_tokens).getD 0
            totalTokens := (data.usage.bind Usage.total_tokens).getD 0 }
          { tr2 with prints := tr2.prints ++
              (if cleanContent (choice.message.content.getD []) = [] then []
               else [chalkSays (cleanContent (choice.message.content.getD []))]) } := by
    rw [chat, heq, chatGo_final runTool parseJson data rest tr2 choice hchoice hnotc]
  refine ⟨?_, ?_, ?_, ?_⟩
  · exact ⟨{ content := cleanContent (choice.message.content.getD [])
             promptTokens := (data.usage.bind Usage.prompt_tokens).getD 0
             completionTokens := (data.usage.bind Usage.completion_tokens).getD 0
             totalTokens := (data.usage.bind Usage.total_tokens).getD 0 },
      by rw [hchat]; rfl, rfl, rfl, rfl, rfl⟩
  · simp only [replTurn]; rw [hchat]; rfl
  · simp only [replTurn]; rw [hchat]; rfl
  · simp only [replTurn]; rw [hchat]; rfl

/-- Witness for C10: one tool round reporting usage 100/100/200, then a
final answer with usage 1/2/3; only the latter reaches the result and the
session counters. -/
theorem c10_final_usage_witness :
    ((∀ r ∈ [FetchOutcome.ok demoToolResponse], isToolRound r = true) ∧
     demoFinalResponse.choices.head? = some demoFinalChoice ∧
     demoFinalChoice.message.tool_calls.getD [] = []) ∧
    ((∃ res : ChatResult,
      chatReturn (chat demoRunTool demoParseJson
          ([FetchOutcome.ok demoToolResponse] ++ FetchOutcome.ok demoFinalResponse :: [])
          "sys".data (demoSession.messages ++ [userMsg "hello".data])) = some res ∧
      res.content = cleanContent (demoFinalChoice.message.content.getD []) ∧
      res.promptTokens = (demoFinalResponse.usage.bind Usage.prompt_tokens).getD 0 ∧
      res.completionTokens = (demoFinalResponse.usage.bind Usage.completion_tokens).getD 0 ∧
      res.totalTokens = (demoFinalResponse.usage.bind Usage.total_tokens).getD 0) ∧
    (replTurn demoRunTool demoParseJson
        ([FetchOutcome.ok demoToolResponse] ++ FetchOutcome.ok demoFinalResponse :: [])
        "sys".data demoSession "hello".data).promptTokens
      = demoSession.promptTokens + (demoFinalResponse.usage.bind Usage.prompt_tokens).getD 0 ∧
    (replTurn demoRunTool demoParseJson
        ([FetchOutcome.ok demoToolResponse] ++ FetchOutcome.ok demoFinalResponse :: [])
        "sys".data demoSession "hello".data).completionTokens
      = demoSession.completionTokens
        + (demoFinalResponse.usage.bind Usage.completion_tokens).getD 0 ∧
    (replTurn demoRunTool demoParseJson
        ([FetchOutcome.ok demoToolResponse] ++ FetchOutcome.ok demoFinalResponse :: [])
        "sys".data demoSession "hello".data).totalTokens
      = demoSession.totalTokens + (demoFinalResponse.usage.bind Usage.total_tokens).getD 0) :=
  ⟨⟨by decide, rfl, rfl⟩,
   c10_final_usage demoRunTool demoParseJson [FetchOutcome.ok demoToolResponse] []
     demoFinalResponse demoFinalChoice "sys".data demoSession "hello".data
     (by decide) rfl rfl⟩

end Chalk
